import Mathlib

/-!
Verification of the gap-detection / backfill / candle-store engine of the
crypto-trading-dashboard backend (`backend/src/services/dataManager.js` and
the streaming ingestion path in `backend/src/index.js`), as a shallow
embedding in Lean.

Timestamps are modelled as `Int` (JS epoch milliseconds), prices and volumes
as `ℚ` (the schema stores them as `DECIMAL(20,8)`).
-/

/-- One OHLCV candle row, mirroring the `candlesticks` relation and the JS
candle objects (`openTime, open, high, low, close, volume, closeTime,
quoteVolume, trades, takerBuyBaseVolume, takerBuyQuoteVolume`).  The SQL
keyword `open` is a Lean keyword, hence the field name `open_`. -/
structure Candle where
  openTime : Int
  open_ : ℚ
  high : ℚ
  low : ℚ
  close : ℚ
  volume : ℚ
  closeTime : Int
  quoteVolume : ℚ
  trades : Int
  takerBuyBaseVolume : ℚ
  takerBuyQuoteVolume : ℚ
deriving DecidableEq, Repr

/-- The `DO UPDATE` arm of `saveCandle`'s `INSERT ... ON CONFLICT` statement:
merge applies only under `candlesticks.close_time < EXCLUDED.close_time`;
it sets `high = GREATEST(stored.high, incoming.high)`,
`low = LEAST(stored.low, incoming.low)` and overwrites
`close, volume, close_time, quote_volume, trades, taker_buy_base_volume,
taker_buy_quote_volume` with the incoming values.  Otherwise the row is
left unchanged. -/
def mergeCandle (stored incoming : Candle) : Candle :=
  if stored.closeTime < incoming.closeTime then
    { stored with
      high := max stored.high incoming.high
      low := min stored.low incoming.low
      close := incoming.close
      volume := incoming.volume
      closeTime := incoming.closeTime
      quoteVolume := incoming.quoteVolume
      trades := incoming.trades
      takerBuyBaseVolume := incoming.takerBuyBaseVolume
      takerBuyQuoteVolume := incoming.takerBuyQuoteVolume }
  else stored

/-- `saveCandle` as seen at one key `(token, timeframe, openTime)`:
no stored row means plain insert, a stored row is combined by
`mergeCandle` (dataManager.js, `saveCandle`). -/
def saveCandle : Option Candle → Candle → Option Candle
  | none, c => some c
  | some s, c => some (mergeCandle s c)

/-- OHLC well-formedness invariant of the spec's data model:
`high ≥ max(open, close)` and `low ≤ min(open, close)`. -/
def wellFormed (c : Candle) : Prop :=
  max c.open_ c.close ≤ c.high ∧ c.low ≤ min c.open_ c.close

instance (c : Candle) : Decidable (wellFormed c) := by
  unfold wellFormed; infer_instance

/-- A stored candle with `high = 100` and `closeTime = 10`. -/
def storedHigh100 : Candle :=
  ⟨0, 95, 100, 90, 98, 10, 20, 950, 5, 4, 380⟩

/-- A later-closeTime incoming candle with `high = 90`. -/
def incomingHigh90 : Candle :=
  ⟨0, 88, 90, 85, 88, 12, 30, 1050, 6, 5, 440⟩

/-- A later-closeTime incoming candle with `high = 150`. -/
def incomingHigh150 : Candle :=
  ⟨0, 95, 150, 90, 120, 15, 30, 1800, 8, 7, 840⟩

/-- C1: upsert with no existing row inserts the incoming candle; when a row
exists, the result merges with `high = max`, `low = min` and the listed
fields overwritten exactly when the incoming `closeTime` is strictly
greater than the stored one, and is a no-op otherwise; in particular a
later-closeTime write with `high = 90` after a stored `high = 100` leaves
`high = 100`, and one with `high = 150` updates it to `150`. -/
theorem saveCandle_upsert_semantics :
    (∀ c : Candle, saveCandle none c = some c)
    ∧ (∀ s c : Candle,
        saveCandle (some s) c =
          some (if s.closeTime < c.closeTime then
            { s with
              high := max s.high c.high
              low := min s.low c.low
              close := c.close
              volume := c.volume
              closeTime := c.closeTime
              quoteVolume := c.quoteVolume
              trades := c.trades
              takerBuyBaseVolume := c.takerBuyBaseVolume
              takerBuyQuoteVolume := c.takerBuyQuoteVolume }
          else s))
    ∧ (saveCandle (some storedHigh100) incomingHigh90).map Candle.high = some 100
    ∧ (saveCandle (some storedHigh100) incomingHigh150).map Candle.high = some 150 := by
  refine ⟨fun c => rfl, fun s c => rfl, by decide, by decide⟩

/-- C10: if the stored candle (when present) and the incoming candle are
both OHLC-well-formed, then so is the candle stored after the upsert,
whether it arises by insert, by merge or by no-op. -/
theorem saveCandle_preserves_wellFormed (st : Option Candle) (c : Candle)
    (hst : ∀ s, st = some s → wellFormed s) (hc : wellFormed c) :
    ∀ r, saveCandle st c = some r → wellFormed r := by
  intro r hr
  cases st with
  | none =>
    simp only [saveCandle, Option.some.injEq] at hr
    exact hr ▸ hc
  | some s =>
    have hs := hst s rfl
    simp only [saveCandle, Option.some.injEq] at hr
    subst hr
    unfold mergeCandle
    split
    · constructor
      · exact max_le_max (le_trans (le_max_left _ _) hs.1)
          (le_trans (le_max_right _ _) hc.1)
      · exact min_le_min (le_trans hs.2 (min_le_left _ _))
          (le_trans hc.2 (min_le_right _ _))
    · exact hs

/-- Witness for C10 at a concrete stored/incoming pair. -/
theorem saveCandle_preserves_wellFormed_witness :
    wellFormed (mergeCandle storedHigh100 incomingHigh90) :=
  saveCandle_preserves_wellFormed (some storedHigh100) incomingHigh90
    (fun s hs => by cases hs; decide) (by decide) _ rfl

/-- Fold a sequence of upserts for a single key into the store cell,
in list order (each element goes through `saveCandle`). -/
def applyUpserts (init : Option Candle) (l : List Candle) : Option Candle :=
  l.foldl saveCandle init

/-- Two distinct candles sharing `closeTime = 100` (duplicate-delivery shape
with conflicting payloads). -/
def tieCandleA : Candle := ⟨0, 1, 2, 0, 1, 1, 100, 1, 1, 1, 1⟩

/-- Same key and `closeTime` as `tieCandleA`, but different close/high. -/
def tieCandleB : Candle := ⟨0, 1, 5, 0, 5, 1, 100, 1, 1, 1, 1⟩

/-- C5 fails as stated: `[tieCandleA, tieCandleB]` and its swap are both
sorted by ascending (non-strict) `closeTime` and are permutations of each
other, yet folding the upserts from the empty cell yields different final
stored candles, because a write whose `closeTime` merely equals the stored
one is dropped. -/
theorem upsert_order_counterexample :
    List.Perm [tieCandleA, tieCandleB] [tieCandleB, tieCandleA]
    ∧ List.Sorted (fun x y : Candle => x.closeTime ≤ y.closeTime)
        [tieCandleA, tieCandleB]
    ∧ List.Sorted (fun x y : Candle => x.closeTime ≤ y.closeTime)
        [tieCandleB, tieCandleA]
    ∧ applyUpserts none [tieCandleA, tieCandleB]
        ≠ applyUpserts none [tieCandleB, tieCandleA] := by
  refine ⟨List.Perm.swap _ _ _, ?_, ?_, ?_⟩
  · simp [List.Sorted, tieCandleA, tieCandleB]
  · simp [List.Sorted, tieCandleA, tieCandleB]
  · decide

instance candleCloseTimeLtAntisymm :
    IsAntisymm Candle (fun x y => x.closeTime < y.closeTime) :=
  ⟨fun _ _ h1 h2 => absurd (h1.trans h2) (lt_irrefl _)⟩

/-- C5 amended: restricted to orderings sorted by *strictly* ascending
`closeTime` (equivalently, sequences whose closeTimes are pairwise
distinct), any two such orderings of the same candles yield the same final
stored candle from the same initial cell; and an upsert whose `closeTime`
is older than or equal to the stored one leaves the stored candle
unchanged. -/
theorem upsert_sorted_order_insensitive :
    (∀ (init : Option Candle) (l₁ l₂ : List Candle), List.Perm l₁ l₂ →
      List.Sorted (fun x y : Candle => x.closeTime < y.closeTime) l₁ →
      List.Sorted (fun x y : Candle => x.closeTime < y.closeTime) l₂ →
      applyUpserts init l₁ = applyUpserts init l₂)
    ∧ (∀ (s c : Candle), c.closeTime ≤ s.closeTime →
        saveCandle (some s) c = some s) := by
  constructor
  · intro init l₁ l₂ hp hs₁ hs₂
    rw [List.eq_of_perm_of_sorted hp hs₁ hs₂]
  · intro s c h
    simp only [saveCandle, mergeCandle, Option.some.injEq]
    rw [if_neg (not_lt.mpr h)]

/-- Witness for C5 (amended) at concrete inputs: two strictly-sorted
orderings of the same two candles agree, and an equal-`closeTime` write
after `tieCandleA` is a no-op. -/
theorem upsert_sorted_order_insensitive_witness :
    applyUpserts none [incomingHigh150, tieCandleA]
      = applyUpserts none [incomingHigh150, tieCandleA]
    ∧ saveCandle (some tieCandleA) tieCandleB = some tieCandleA :=
  ⟨upsert_sorted_order_insensitive.1 none [incomingHigh150, tieCandleA]
      [incomingHigh150, tieCandleA] (List.Perm.refl _)
      (by simp [List.Sorted, tieCandleA, incomingHigh150])
      (by simp [List.Sorted, tieCandleA, incomingHigh150]),
    upsert_sorted_order_insensitive.2 tieCandleA tieCandleB (by decide)⟩

/-- A detected gap, mirroring the objects pushed by `findDataGaps`
(`{start, end, missingIntervals}`); `end` is a Lean keyword, hence `end_`. -/
structure Gap where
  start : Int
  end_ : Int
  missingIntervals : Int
deriving DecidableEq, Repr

/-- The interval duration chosen at the top of `findDataGaps`: 5 minutes for
`'5m'`, 1 hour for `'1h'`, and 1 day for everything else (the bare `else`
branch of the source). -/
def intervalMsOf (timeframe : String) : Int :=
  if timeframe = "5m" then 300000
  else if timeframe = "1h" then 3600000
  else 86400000

/-- The bootstrap lookback window chosen by `findDataGaps` when the series is
empty: 1 day for `'5m'`, 7 days for `'1h'`, and 90 days for everything else
(again a bare `else` branch). -/
def lookbackMs (timeframe : String) : Int :=
  if timeframe = "5m" then 86400000
  else if timeframe = "1h" then 604800000
  else 7776000000

/-- The `for (let i = 1; ...)` walk of `findDataGaps` over consecutive stored
openTimes: for a pair `(prev, curr)` with `curr > prev + intervalMs`, push
`{start: prev + intervalMs, end: curr - intervalMs,
missingIntervals: floor((curr - (prev + intervalMs)) / intervalMs)}`. -/
def interiorGaps (d : Int) : List Int → List Gap
  | [] => []
  | [_] => []
  | a :: b :: rest =>
    (if a + d < b then
      [⟨a + d, b - d, Int.fdiv (b - (a + d)) d⟩]
    else []) ++ interiorGaps d (b :: rest)

/-- `findDataGaps(token, timeframe)` on the ascending list of stored
openTimes for that key, with `now` passed explicitly in place of
`Date.now()`: empty series yields the single bootstrap gap, otherwise the
interior gaps are followed by a trailing gap when
`now > lastTime + intervalMs + intervalMs`. -/
def findDataGaps (timeframe : String) (rows : List Int) (now : Int) : List Gap :=
  let intervalMs := intervalMsOf timeframe
  match rows with
  | [] =>
    let startTime := now - lookbackMs timeframe
    [⟨startTime, now, Int.fdiv (now - startTime) intervalMs⟩]
  | r :: rs =>
    let lastTime := (r :: rs).getLast (List.cons_ne_nil r rs)
    let expectedLastTime := lastTime + intervalMs
    interiorGaps intervalMs (r :: rs) ++
      (if expectedLastTime + intervalMs < now then
        [⟨expectedLastTime, now, Int.fdiv (now - expectedLastTime) intervalMs⟩]
      else [])

/-- C2 fails as stated: for the stored 1-hour openTimes `[0, 7200000]`
(a two-interval spacing) the code emits the gap `[3600000, 3600000]` with
`missingIntervals = 1`, whereas the claim's formula
`floor((curr - prev) / duration)` gives `2`; the gap mandated by the claim
is not in the output. -/
theorem interiorGap_count_counterexample :
    ((0 : Int), (7200000 : Int)) ∈
      ([0, 7200000] : List Int).zip ([0, 7200000] : List Int).tail
    ∧ (0 : Int) + intervalMsOf "1h" < 7200000
    ∧ Int.fdiv ((7200000 : Int) - 0) (intervalMsOf "1h") = 2
    ∧ findDataGaps "1h" [0, 7200000] 8000000 = [⟨3600000, 3600000, 1⟩]
    ∧ Gap.mk 3600000 3600000 (Int.fdiv ((7200000 : Int) - 0) (intervalMsOf "1h"))
        ∉ findDataGaps "1h" [0, 7200000] 8000000 := by
  refine ⟨?_, ?_, ?_, ?_, ?_⟩ <;> decide

lemma mem_interiorGaps_of_pair (d : Int) :
    ∀ (rows : List Int) (prev curr : Int),
      (prev, curr) ∈ rows.zip rows.tail → prev + d < curr →
      Gap.mk (prev + d) (curr - d) (Int.fdiv (curr - (prev + d)) d)
        ∈ interiorGaps d rows
  | [], _, _, hmem, _ => by simp at hmem
  | [_], _, _, hmem, _ => by simp at hmem
  | a :: b :: rest, prev, curr, hmem, hlt => by
    simp only [List.tail_cons, List.zip_cons_cons, List.mem_cons,
      Prod.mk.injEq] at hmem
    rcases hmem with ⟨ha, hb⟩ | hmem
    · subst ha; subst hb
      simp only [interiorGaps, List.mem_append]
      exact Or.inl (by rw [if_pos hlt]; exact List.mem_singleton.mpr rfl)
    · simp only [interiorGaps, List.mem_append]
      exact Or.inr (mem_interiorGaps_of_pair d (b :: rest) prev curr hmem hlt)

/-- C2 amended: for every consecutive pair `(prev, curr)` of stored
openTimes with `curr > prev + duration`, `findDataGaps` emits the gap
`[prev + duration, curr - duration]`, with `missingIntervalCount` equal to
`floor((curr - (prev + duration)) / duration)` — that is,
`floor((curr - prev) / duration) - 1`, not `floor((curr - prev) / duration)`. -/
theorem interiorGap_emission (tf : String) (rows : List Int) (now prev curr : Int)
    (hmem : (prev, curr) ∈ rows.zip rows.tail)
    (hlt : prev + intervalMsOf tf < curr) :
    Gap.mk (prev + intervalMsOf tf) (curr - intervalMsOf tf)
        (Int.fdiv (curr - (prev + intervalMsOf tf)) (intervalMsOf tf))
      ∈ findDataGaps tf rows now := by
  match rows with
  | [] => simp at hmem
  | r :: rs =>
    simp only [findDataGaps, List.mem_append]
    exact Or.inl (mem_interiorGaps_of_pair _ (r :: rs) prev curr hmem hlt)

/-- Witness for C2 (amended) at the two-interval spacing `[0, 7200000]`. -/
theorem interiorGap_emission_witness :
    Gap.mk ((0 : Int) + intervalMsOf "1h") (7200000 - intervalMsOf "1h")
        (Int.fdiv ((7200000 : Int) - (0 + intervalMsOf "1h")) (intervalMsOf "1h"))
      ∈ findDataGaps "1h" [0, 7200000] 8000000 :=
  interiorGap_emission "1h" [0, 7200000] 8000000 0 7200000
    (by decide) (by decide)

/-- Modelled from the spec: the IntervalPolicy lookup
`durationOf(timeframe) -> Duration` that "fails with UnknownTimeframe if
not configured", with the configured set {5-minute, 1-hour, 1-day};
`none` stands for the `UnknownTimeframe` configuration error.  This is the
specification-side definition being compared against the source's
`intervalMsOf`. -/
def durationOfSpecModel (timeframe : String) : Option Int :=
  if timeframe = "5m" then some 300000
  else if timeframe = "1h" then some 3600000
  else if timeframe = "1d" then some 86400000
  else none

/-- C3 fails as stated: the spec-side lookup rejects `"15m"`, but the code's
duration selection falls back to the 1-day duration for it, and gap
detection on the unconfigured timeframe `"15m"` runs with that fallback
(producing the same output as `"1d"`) instead of failing. -/
theorem durationOf_fallback_counterexample :
    durationOfSpecModel "15m" = none
    ∧ intervalMsOf "15m" = 86400000
    ∧ findDataGaps "15m" [0] 100 = findDataGaps "1d" [0] 100 := by
  refine ⟨?_, ?_, ?_⟩ <;> decide

/-- C3 amended: every timeframe other than `'5m'` and `'1h'` — configured or
not — is assigned the 1-day duration (86400000 ms) and the 90-day bootstrap
lookback as a runtime fallback, and `findDataGaps` on such a timeframe
behaves exactly as it does for `'1d'`; no lookup failure occurs. -/
theorem unknownTimeframe_fallback (tf : String)
    (h5 : tf ≠ "5m") (h1 : tf ≠ "1h") :
    intervalMsOf tf = 86400000
    ∧ lookbackMs tf = 7776000000
    ∧ ∀ (rows : List Int) (now : Int),
        findDataGaps tf rows now = findDataGaps "1d" rows now := by
  have hi : intervalMsOf tf = 86400000 := by
    simp [intervalMsOf, h5, h1]
  have hl : lookbackMs tf = 7776000000 := by
    simp [lookbackMs, h5, h1]
  have hi' : intervalMsOf "1d" = 86400000 := by decide
  have hl' : lookbackMs "1d" = 7776000000 := by decide
  refine ⟨hi, hl, ?_⟩
  intro rows now
  cases rows with
  | nil => simp only [findDataGaps]; rw [hi, hl, hi', hl']
  | cons r rs => simp only [findDataGaps]; rw [hi, hi']

/-- Witness for C3 (amended) at the unconfigured timeframe `"15m"`. -/
theorem unknownTimeframe_fallback_witness :
    intervalMsOf "15m" = 86400000
    ∧ lookbackMs "15m" = 7776000000
    ∧ ∀ (rows : List Int) (now : Int),
        findDataGaps "15m" rows now = findDataGaps "1d" rows now :=
  unknownTimeframe_fallback "15m" (by decide) (by decide)

/-- The stored 1-hour openTimes 00:00, 01:00, 02:00, 04:00, 05:00 (in epoch
milliseconds from midnight), with 03:00 missing. -/
def hourRowsMissing3 : List Int := [0, 3600000, 7200000, 14400000, 18000000]

/-- C4: for every non-empty series, `findDataGaps` consists of the interior
gaps followed by a trailing gap `[last + duration, now]` exactly when
`now > last + 2 * duration`; concretely, for 1-hour openTimes
00:00–02:00, 04:00, 05:00, at `now = 06:00` only the interior gap
`[03:00, 03:00]` (`missingIntervals = 1`) is returned, at `now = 07:01` the
trailing gap starting at 06:00 appears, and a single-point series is still
evaluated for a trailing gap. -/
theorem findDataGaps_trailing_gap :
    (∀ (tf : String) (rows : List Int) (now last : Int),
      rows.getLast? = some last →
      findDataGaps tf rows now =
        interiorGaps (intervalMsOf tf) rows ++
          (if last + 2 * intervalMsOf tf < now then
            [⟨last + intervalMsOf tf, now,
              Int.fdiv (now - (last + intervalMsOf tf)) (intervalMsOf tf)⟩]
          else []))
    ∧ findDataGaps "1h" hourRowsMissing3 21600000 = [⟨10800000, 10800000, 1⟩]
    ∧ findDataGaps "1h" hourRowsMissing3 25260000 =
        [⟨10800000, 10800000, 1⟩, ⟨21600000, 25260000, 1⟩]
    ∧ findDataGaps "1h" [0] 7200001 = [⟨3600000, 7200001, 1⟩] := by
  refine ⟨?_, by decide, by decide, by decide⟩
  intro tf rows now last hlast
  cases rows with
  | nil => simp at hlast
  | cons r rs =>
    have hne : r :: rs ≠ [] := List.cons_ne_nil r rs
    rw [List.getLast?_eq_getLast _ hne, Option.some.injEq] at hlast
    simp only [findDataGaps]
    rw [hlast, two_mul, ← add_assoc]

/-- Witness for C4's general conjunct at the single-point series `[0]`. -/
theorem findDataGaps_trailing_gap_witness :
    findDataGaps "1h" [0] 7200001 =
      interiorGaps (intervalMsOf "1h") [0] ++
        (if (0 : Int) + 2 * intervalMsOf "1h" < 7200001 then
          [⟨0 + intervalMsOf "1h", 7200001,
            Int.fdiv (7200001 - (0 + intervalMsOf "1h")) (intervalMsOf "1h")⟩]
        else []) :=
  findDataGaps_trailing_gap.1 "1h" [0] 7200001 0 rfl

/-- Row key of the `candlesticks` relation: `(token, timeframe, open_time)`
(the `UNIQUE(token, timeframe, open_time)` constraint). -/
abbrev CandleKey := String × String × Int

/-- The candle store: the `candlesticks` relation as a keyed association
list. -/
abbrev Store := List (CandleKey × Candle)

/-- Row lookup by key. -/
def lookupStore (st : Store) (k : CandleKey) : Option Candle :=
  (st.find? (fun kv => kv.1 = k)).map (·.2)

/-- Replace the row at a key, leaving other rows alone. -/
def updateStore : Store → CandleKey → Candle → Store
  | [], _, _ => []
  | kv :: rest, k, c =>
    if kv.1 = k then (k, c) :: rest else kv :: updateStore rest k c

/-- `saveCandle` at store level: insert when the key is absent, otherwise
apply the `ON CONFLICT` merge (`mergeCandle`) to the stored row. -/
def saveCandleStore (st : Store) (token tf : String) (c : Candle) : Store :=
  let key : CandleKey := (token, tf, c.openTime)
  match lookupStore st key with
  | none => (key, c) :: st
  | some s => updateStore st key (mergeCandle s c)

/-- The upstream historical API (`fetchKlines(symbol, interval, limit,
startTime, endTime)`), as an oracle that may fail with an error message
(network / non-2xx / parse failure). -/
abbrev Fetcher := String → String → Int → Int → Int → Except String (List Candle)

/-- One persistence write through the pool (`saveCandle`'s
`pool.query`), as an oracle that may fail with a `PersistenceError`
message. -/
abbrev SaveOp := Store → String → String → Candle → Except String Store

/-- The always-succeeding persistence layer: the plain store upsert. -/
def okSave : SaveOp := fun st token tf c => Except.ok (saveCandleStore st token tf c)

/-- A persistence layer whose every write fails with message `e`. -/
def failSave (e : String) : SaveOp := fun _ _ _ _ => Except.error e

/-- A fetcher that always returns the single-candle page `[c]`. -/
def fetchConst (c : Candle) : Fetcher := fun _ _ _ _ _ => Except.ok [c]

/-- A fetcher that always returns the empty page. -/
def fetchEmpty : Fetcher := fun _ _ _ _ _ => Except.ok []

/-- The inner `for (const kline of klines) await this.saveCandle(...)` loop:
writes candles in order and stops at the first persistence failure,
keeping the writes made so far. -/
def saveSeq (save : SaveOp) (token tf : String) :
    Store → List Candle → Store × Option String
  | st, [] => (st, none)
  | st, c :: cs =>
    match save st token tf c with
    | Except.error e => (st, some e)
    | Except.ok st' => saveSeq save token tf st' cs

/-- The `while (currentStart < gap.end)` paging loop of `fillGaps` for one
gap, with explicit fuel for the page count: fetch a page of at most
`min(maxCandles, 1000)` candles, persist it, advance the cursor to
`lastKline.closeTime + 1`, stop on an empty page.  Returns the candles
counted for this gap, the store after the writes that happened, and the
first error raised (fetch or persistence), which aborts the loop. -/
def fillGapLoop (fetch : Fetcher) (save : SaveOp) (symbol token tf : String)
    (maxCandles gapEnd : Int) :
    Nat → Int → Store → Nat × Store × Option String
  | 0, _, st => (0, st, none)
  | Nat.succ fuel, currentStart, st =>
    if currentStart < gapEnd then
      match fetch symbol tf (min maxCandles 1000) currentStart gapEnd with
      | Except.error e => (0, st, some e)
      | Except.ok [] => (0, st, none)
      | Except.ok (k :: ks) =>
        match saveSeq save token tf st (k :: ks) with
        | (st', some e) => (0, st', some e)
        | (st', none) =>
          let nextStart := ((k :: ks).getLast (List.cons_ne_nil k ks)).closeTime + 1
          let rest := fillGapLoop fetch save symbol token tf maxCandles gapEnd
            fuel nextStart st'
          ((k :: ks).length + rest.1, rest.2.1, rest.2.2)
    else (0, st, none)

/-- The `for (const gap of gaps) { try ... catch }` loop of `fillGaps`:
each gap runs its paging loop from `gap.start`; an error raised inside a
gap is caught, its message pushed onto `errors`, and the remaining gaps are
still processed against the store state left behind.  Returns
`(candlesFilled, errors, store)`. -/
def processGaps (fetch : Fetcher) (save : SaveOp) (symbol token tf : String)
    (maxCandles : Int) (fuel : Nat) :
    List Gap → Store → Nat × List String × Store
  | [], st => (0, [], st)
  | g :: gs, st =>
    let one := fillGapLoop fetch save symbol token tf maxCandles g.end_
      fuel g.start st
    let rest := processGaps fetch save symbol token tf maxCandles fuel gs one.2.1
    (one.1 + rest.1, one.2.2.toList ++ rest.2.1, rest.2.2)

/-- The result object of `fillGaps`: `{candlesFilled, errors}`. -/
structure FillResult where
  candlesFilled : Nat
  errors : List String
deriving DecidableEq, Repr

/-- The ascending list of stored openTimes for `(token, timeframe)` — the
`SELECT open_time ... ORDER BY open_time ASC` read at the top of
`findDataGaps`. -/
def storedOpenTimes (st : Store) (token tf : String) : List Int :=
  ((st.filter (fun kv => kv.1.1 = token ∧ kv.1.2.1 = tf)).map
    (fun kv => kv.1.2.2)).insertionSort (· ≤ ·)

/-- `DataManager.fillGaps(token, timeframe, maxCandles)`: resolve the
upstream symbol from the market configuration (unknown token short-circuits
with an error entry), detect gaps, then run the per-gap loops. -/
def fillGaps (fetch : Fetcher) (save : SaveOp)
    (marketConfig : List (String × String)) (token tf : String)
    (maxCandles : Int) (fuel : Nat) (now : Int) (st : Store) :
    FillResult × Store :=
  match (marketConfig.find? (fun p => p.1 = token)).map (·.2) with
  | none => (⟨0, ["Unknown token: " ++ token]⟩, st)
  | some symbol =>
    let gaps := findDataGaps tf (storedOpenTimes st token tf) now
    let r := processGaps fetch save symbol token tf maxCandles fuel gaps st
    (⟨r.1, r.2.1⟩, r.2.2)

/-- The `MARKET_CONFIG` of `index.js`: token → upstream symbol. -/
def marketConfigModel : List (String × String) :=
  [("BTC", "btcusdt"), ("ETH", "ethusdt"), ("SOL", "solusdt"), ("ADA", "adausdt")]

/-- A well-formed candle with `closeTime = 500`, used as the page returned
by the mocked fetcher. -/
def fetchedCandle : Candle := ⟨0, 1, 2, 0, 1, 1, 500, 1, 1, 1, 1⟩

/-- C8 fails as stated: with a persistence layer whose write fails with
`"write failed"` and a fetcher returning one candle, `fillGaps` on an empty
store (one bootstrap gap) catches the persistence error in the per-gap
handler and converts it into an entry of the returned `errors` list,
returning a normal `{candlesFilled, errors}` result instead of letting the
error propagate. -/
theorem persistence_error_swallowed_counterexample :
    fillGaps (fetchConst fetchedCandle) (failSave "write failed")
        marketConfigModel "BTC" "5m" 1000 2 86400000 [] =
      (⟨0, ["write failed"]⟩, []) := by
  decide

/-- C8 amended: a store write failure raised while `fillGaps` is persisting
a fetched candle is caught by the per-gap handler and appended to the
returned `errors` list, aborting only that gap's paging loop; processing
then continues with the remaining gaps from the same store state, and no
error propagates out of `fillGaps`.  (Within `saveCandle` itself the
failure does reach the loop uncaught.) -/
theorem persistence_error_recorded (e : String) (c : Candle) (g : Gap)
    (gs : List Gap) (st : Store) (sym tok tf : String) (maxC : Int)
    (fuel : Nat) (hg : g.start < g.end_) :
    processGaps (fetchConst c) (failSave e) sym tok tf maxC (fuel + 1)
        (g :: gs) st =
      ((processGaps (fetchConst c) (failSave e) sym tok tf maxC (fuel + 1) gs st).1,
        e :: (processGaps (fetchConst c) (failSave e) sym tok tf maxC (fuel + 1)
            gs st).2.1,
        (processGaps (fetchConst c) (failSave e) sym tok tf maxC (fuel + 1)
            gs st).2.2) := by
  simp [processGaps, fillGapLoop, saveSeq, fetchConst, failSave, if_pos hg]

/-- Witness for C8 (amended) at a concrete failing write. -/
theorem persistence_error_recorded_witness :
    processGaps (fetchConst fetchedCandle) (failSave "disk full")
        "btcusdt" "BTC" "5m" 1000 (0 + 1) [⟨0, 1000, 1⟩] [] =
      ((processGaps (fetchConst fetchedCandle) (failSave "disk full")
          "btcusdt" "BTC" "5m" 1000 (0 + 1) [] []).1,
        "disk full" :: (processGaps (fetchConst fetchedCandle) (failSave "disk full")
            "btcusdt" "BTC" "5m" 1000 (0 + 1) [] []).2.1,
        (processGaps (fetchConst fetchedCandle) (failSave "disk full")
            "btcusdt" "BTC" "5m" 1000 (0 + 1) [] []).2.2) :=
  persistence_error_recorded "disk full" fetchedCandle ⟨0, 1000, 1⟩ [] []
    "btcusdt" "BTC" "5m" 1000 0 (by decide)

/-- C9: per-gap error isolation in `fillGaps`.  First conjunct: processing a
concatenation of gap lists equals processing the first list, then the
second from the store the first left behind — counts add, error messages
append in order, so a failure inside one gap never prevents later gaps from
being processed and never disturbs candles already written for earlier
gaps.  Second conjunct: the gap at the head contributes the (at most one)
error message its paging loop raised, followed by the errors of the
remaining gaps; the result is always a plain `(candlesFilled, errors,
store)` value, never a propagated exception. -/
theorem fillGaps_error_isolation :
    (∀ (fetch : Fetcher) (save : SaveOp) (sym tok tf : String) (maxC : Int)
        (fuel : Nat) (gs₁ gs₂ : List Gap) (st : Store),
      processGaps fetch save sym tok tf maxC fuel (gs₁ ++ gs₂) st =
        ((processGaps fetch save sym tok tf maxC fuel gs₁ st).1 +
            (processGaps fetch save sym tok tf maxC fuel gs₂
              (processGaps fetch save sym tok tf maxC fuel gs₁ st).2.2).1,
          (processGaps fetch save sym tok tf maxC fuel gs₁ st).2.1 ++
            (processGaps fetch save sym tok tf maxC fuel gs₂
              (processGaps fetch save sym tok tf maxC fuel gs₁ st).2.2).2.1,
          (processGaps fetch save sym tok tf maxC fuel gs₂
            (processGaps fetch save sym tok tf maxC fuel gs₁ st).2.2).2.2))
    ∧ (∀ (fetch : Fetcher) (save : SaveOp) (sym tok tf : String) (maxC : Int)
        (fuel : Nat) (g : Gap) (gs : List Gap) (st : Store),
      (processGaps fetch save sym tok tf maxC fuel (g :: gs) st).2.1 =
        (fillGapLoop fetch save sym tok tf maxC g.end_ fuel g.start st).2.2.toList
          ++ (processGaps fetch save sym tok tf maxC fuel gs
              (fillGapLoop fetch save sym tok tf maxC g.end_ fuel g.start
                st).2.1).2.1) := by
  constructor
  · intro fetch save sym tok tf maxC fuel gs₁ gs₂ st
    induction gs₁ generalizing st with
    | nil => simp [processGaps]
    | cons g gs ih =>
      simp only [List.cons_append, processGaps, List.append_eq]
      rw [ih]
      simp [Nat.add_assoc, List.append_assoc]
  · intro fetch save sym tok tf maxC fuel g gs st
    simp [processGaps]

/-- The fixed timeframe list of `fillAllGaps`. -/
def timeframesModel : List String := ["5m", "1h", "1d"]

/-- The full Cartesian product `tokens × timeframes` that `fillAllGaps`
iterates over (tokens first, timeframes nested). -/
def allPairs (marketConfig : List (String × String)) : List (String × String) :=
  (marketConfig.map (·.1)).flatMap (fun tok => timeframesModel.map (fun tf => (tok, tf)))

/-- Per-pair entry in the result list of `fillAllGaps`. -/
structure PairResult where
  token : String
  timeframe : String
  result : FillResult
deriving DecidableEq, Repr

/-- Observable state of a `DataManager` instance: the in-flight guard
`isFillingGaps` together with the persistent store. -/
structure ManagerState where
  isFillingGaps : Bool
  store : Store
deriving DecidableEq, Repr

/-- Run `fillGaps(token, timeframe)` over a list of pairs, threading the
store (a sequential linearization of `Promise.all`'s single-threaded
interleaving; `fillGaps` itself never rejects, so the `.catch` wrapper of
`fillAllGaps` is never exercised). -/
def runPairs (fetch : Fetcher) (save : SaveOp)
    (marketConfig : List (String × String)) (maxCandles : Int) (fuel : Nat)
    (now : Int) : List (String × String) → Store → List PairResult × Store
  | [], st => ([], st)
  | (tok, tf) :: rest, st =>
    let r := fillGaps fetch save marketConfig tok tf maxCandles fuel now st
    let others := runPairs fetch save marketConfig maxCandles fuel now rest r.2
    (⟨tok, tf, r.1⟩ :: others.1, others.2)

/-- `DataManager.fillAllGaps()`: when the in-flight guard is set, return the
empty result list immediately and leave everything untouched; otherwise set
the guard, run `fillGaps` over every `(token, timeframe)` pair of the full
Cartesian product, and clear the guard in the `finally` block. -/
def fillAllGaps (fetch : Fetcher) (save : SaveOp)
    (marketConfig : List (String × String)) (fuel : Nat) (now : Int)
    (s : ManagerState) : List PairResult × ManagerState :=
  if s.isFillingGaps then ([], s)
  else
    let running : ManagerState := { s with isFillingGaps := true }
    let r := runPairs fetch save marketConfig 1000 fuel now
      (allPairs marketConfig) running.store
    (r.1, { isFillingGaps := false, store := r.2 })

lemma runPairs_pairs (fetch : Fetcher) (save : SaveOp)
    (marketConfig : List (String × String)) (maxCandles : Int) (fuel : Nat)
    (now : Int) :
    ∀ (ps : List (String × String)) (st : Store),
      (runPairs fetch save marketConfig maxCandles fuel now ps st).1.map
        (fun pr => (pr.token, pr.timeframe)) = ps
  | [], _ => rfl
  | (tok, tf) :: rest, st => by
    simp only [runPairs, List.map_cons]
    exact congrArg _ (runPairs_pairs fetch save marketConfig maxCandles fuel
      now rest _)

/-- C6: a `fillAllGaps` call finding the in-flight guard set performs no gap
detection, fetching or store write — its result is the empty list and the
manager state (guard and store) is returned unchanged, without queueing
anything; a call finding the guard clear processes exactly the full
Cartesian product of configured tokens and timeframes, one result entry
per pair in order, and hands the guard back cleared so a subsequent pass
can start. -/
theorem fillAllGaps_guard :
    (∀ (fetch : Fetcher) (save : SaveOp) (marketConfig : List (String × String))
        (fuel : Nat) (now : Int) (s : ManagerState), s.isFillingGaps = true →
      fillAllGaps fetch save marketConfig fuel now s = ([], s))
    ∧ (∀ (fetch : Fetcher) (save : SaveOp) (marketConfig : List (String × String))
        (fuel : Nat) (now : Int) (s : ManagerState), s.isFillingGaps = false →
      (fillAllGaps fetch save marketConfig fuel now s).1.map
          (fun pr => (pr.token, pr.timeframe)) = allPairs marketConfig
      ∧ (fillAllGaps fetch save marketConfig fuel now s).2.isFillingGaps = false) := by
  constructor
  · intro fetch save marketConfig fuel now s h
    simp [fillAllGaps, h]
  · intro fetch save marketConfig fuel now s h
    constructor
    · simp only [fillAllGaps, h, Bool.false_eq_true, if_false]
      exact runPairs_pairs fetch save marketConfig 1000 fuel now _ _
    · simp [fillAllGaps, h]

/-- Witness for C6: a guarded call on a concrete busy state is a no-op with
empty results, and an unguarded call on the idle empty store covers the
12 configured pairs and clears the guard. -/
theorem fillAllGaps_guard_witness :
    fillAllGaps fetchEmpty okSave marketConfigModel 1 0 ⟨true, []⟩ = ([], ⟨true, []⟩)
    ∧ (fillAllGaps fetchEmpty okSave marketConfigModel 1 0 ⟨false, []⟩).1.map
        (fun pr => (pr.token, pr.timeframe)) = allPairs marketConfigModel
    ∧ (fillAllGaps fetchEmpty okSave marketConfigModel 1 0 ⟨false, []⟩).2.isFillingGaps
        = false :=
  ⟨fillAllGaps_guard.1 fetchEmpty okSave marketConfigModel 1 0 ⟨true, []⟩ rfl,
    (fillAllGaps_guard.2 fetchEmpty okSave marketConfigModel 1 0 ⟨false, []⟩ rfl).1,
    (fillAllGaps_guard.2 fetchEmpty okSave marketConfigModel 1 0 ⟨false, []⟩ rfl).2⟩

/-- An inbound combined-stream kline payload (`message.k` plus the envelope
fields the handler reads): `e` is the event type, `s` the upper-case
symbol, and the kline carries `t/T` (open/close time), `o/h/l/c/v`,
`q` (quote volume), `n` (trades) and `V/Q` (taker-buy volumes). -/
structure KlineEvent where
  e : String
  s : String
  t : Int
  T : Int
  o : ℚ
  h : ℚ
  l : ℚ
  c : ℚ
  v : ℚ
  q : ℚ
  n : Int
  V : ℚ
  Q : ℚ
deriving DecidableEq, Repr

/-- One frame of the combined stream: the stream name it arrived on (e.g.
`btcusdt@kline_1h`) and its `data` payload.  The handler never reads
`stream`. -/
structure StreamFrame where
  stream : String
  data : KlineEvent
deriving DecidableEq, Repr

/-- The `{symbol}@kline_{interval}` stream names for one interval. -/
def klineStreams (marketConfig : List (String × String)) (interval : String) :
    List String :=
  marketConfig.map (fun p => p.2 ++ "@kline_" ++ interval)

/-- The combined subscription list of `connectToBinance`:
all 5m streams, then all 1h streams, then all 1d streams. -/
def allStreams (marketConfig : List (String × String)) : List String :=
  klineStreams marketConfig "5m" ++ klineStreams marketConfig "1h"
    ++ klineStreams marketConfig "1d"

/-- ASCII upper-casing of a symbol (`config.symbol.toUpperCase()`), written
as a character-list map so that it evaluates inside the kernel. -/
def strUpper (s : String) : String := String.mk (s.data.map Char.toUpper)

/-- The token lookup of the message handler: the configured entry whose
upper-cased symbol equals `message.s`. -/
def findToken (marketConfig : List (String × String)) (sym : String) :
    Option String :=
  (marketConfig.find? (fun p => strUpper p.2 = sym)).map (·.1)

/-- The candle object the handler builds from `message.k`. -/
def parseStreamCandle (k : KlineEvent) : Candle :=
  { openTime := k.t, open_ := k.o, high := k.h, low := k.l, close := k.c,
    volume := k.v, closeTime := k.T, quoteVolume := k.q, trades := k.n,
    takerBuyBaseVolume := k.V, takerBuyQuoteVolume := k.Q }

/-- The `ws.on('message')` handler of `connectToBinance`: on a kline event
whose symbol maps to a configured token, write the parsed candle through
`saveCandle` with the constant timeframe `'5m'`; otherwise drop the
frame. -/
def handleStreamMessage (marketConfig : List (String × String)) (st : Store)
    (frame : StreamFrame) : Store :=
  if frame.data.e = "kline" then
    match findToken marketConfig frame.data.s with
    | some token => saveCandleStore st token "5m" (parseStreamCandle frame.data)
    | none => st
  else st

/-- C7: every inbound kline frame that maps to a configured token is written
to the store under the timeframe `'5m'`, no matter which stream it arrived
on — even though the subscription enumerates the `kline_5m`, `kline_1h`
and `kline_1d` streams for every configured asset, so 1-hour and 1-day
events are stored under the 5-minute key. -/
theorem streamIngest_timeframe_5m :
    (∀ (marketConfig : List (String × String)) (st : Store)
        (frame : StreamFrame) (token : String),
      frame.data.e = "kline" →
      findToken marketConfig frame.data.s = some token →
      handleStreamMessage marketConfig st frame =
        saveCandleStore st token "5m" (parseStreamCandle frame.data))
    ∧ (∀ (marketConfig : List (String × String)) (p : String × String)
        (interval : String), p ∈ marketConfig → interval ∈ timeframesModel →
      p.2 ++ "@kline_" ++ interval ∈ allStreams marketConfig) := by
  constructor
  · intro marketConfig st frame token he hf
    simp [handleStreamMessage, he, hf]
  · intro marketConfig p interval hp hi
    have hmem : p.2 ++ "@kline_" ++ interval ∈ klineStreams marketConfig interval :=
      List.mem_map.mpr ⟨p, hp, rfl⟩
    simp only [timeframesModel, List.mem_cons, List.not_mem_nil, or_false] at hi
    rcases hi with h | h | h <;> subst h <;>
      simp only [allStreams, List.mem_append] <;> tauto

/-- A kline frame arriving on the 1-hour stream for the configured symbol
`btcusdt`. -/
def sampleHourFrame : StreamFrame :=
  { stream := "btcusdt@kline_1h"
    data := { e := "kline", s := "BTCUSDT", t := 0, T := 3599999, o := 1,
              h := 2, l := 0, c := 1, v := 1, q := 1, n := 1, V := 1, Q := 1 } }

/-- Witness for C7: the concrete 1-hour frame for BTC is written under the
`'5m'` timeframe, and its stream name is indeed part of the subscription
list. -/
theorem streamIngest_timeframe_5m_witness :
    handleStreamMessage marketConfigModel [] sampleHourFrame =
      saveCandleStore [] "BTC" "5m" (parseStreamCandle sampleHourFrame.data)
    ∧ ("BTC", "btcusdt").2 ++ "@kline_" ++ "1h" ∈ allStreams marketConfigModel :=
  ⟨streamIngest_timeframe_5m.1 marketConfigModel [] sampleHourFrame "BTC"
      rfl (by decide),
    streamIngest_timeframe_5m.2 marketConfigModel ("BTC", "btcusdt") "1h"
      (by decide) (by decide)⟩
